import Mathlib

/-!
Verification of the Conversation Session & Provider Dispatch engine of a
Telegram chat bot (`src/main.py`).  The Python code is shallowly embedded:
the mutable `ConversationManager` state becomes an explicit `Store`
(in-memory session plus the durable on-disk record), `datetime.now()`
becomes an explicit timestamp argument, and the external `g4f` completion
backend becomes a function parameter `provider` from the prepared context
to `Except Unit String` (`Except.error` models a raised exception).
-/

namespace TgBot

/-- One conversation history entry, as stored by
`ConversationManager.add_message`: a dict with keys `role`, `content`,
`timestamp` (ISO string from `datetime.now().isoformat()`). -/
structure Msg where
  role : String
  content : String
  timestamp : String
deriving DecidableEq, Repr

/-- One entry of the message list handed to the completion backend in
`get_ai_response` / `_call_g4f`: only `role` and `content` are projected. -/
structure CMsg where
  role : String
  content : String
deriving DecidableEq, Repr

/-- The in-memory per-user state of a `ConversationManager`:
`self.user_id`, `self.language`, `self.conversation`. -/
structure Session where
  user_id : Nat
  language : String
  conversation : List Msg
deriving DecidableEq, Repr

/-- The durable record `save_history` writes as JSON: keys `user_id`,
`language`, `conversation`, `timestamp`.  JSON (de)serialization of this
record is exact on these field types, so the record itself is the model of
the file contents. -/
structure SavedRecord where
  user_id : Nat
  language : String
  conversation : List Msg
  timestamp : String
deriving DecidableEq, Repr

/-- The durable side of one user's state: `none` models a missing
`conversations/user_{id}.json` file, `Except.error ()` a file that exists
but cannot be parsed (the `except` branch of `_load_history`), and
`Except.ok r` a readable record. -/
abbrev Disk := Option (Except Unit SavedRecord)

/-- A `ConversationManager` together with its durable file. -/
structure Store where
  session : Session
  disk : Disk
deriving Repr

/-- The constant `MAX_HISTORY_LENGTH = 50` of `main.py`. -/
def MAX_HISTORY_LENGTH : Nat := 50

/-- The `TRANSLATIONS` table of `main.py`, as an association list.
`\x7b\x7d` is the literal `.format` placeholder of the Python source and
`�` reproduces the two replacement characters present verbatim in the
source file's Russian `error` string. -/
def TRANSLATIONS : List (String × List (String × String)) :=
  [("en",
    [("welcome", "Welcome! I\x27m a ChatGPT-powered bot using g4f. Send me any message and I\x27ll respond."),
     ("help", "Available commands:\n/start - Start the bot\n/help - Show this message\n/clear - Clear conversation history\n/history - Show conversation history\n/language - Switch language (en/ru)\n/file - Send a file for analysis\n\nJust send me any message to chat!"),
     ("cleared", "✓ Conversation history cleared."),
     ("history_empty", "No conversation history yet."),
     ("typing", "Typing..."),
     ("error", "Sorry, an error occurred. Please try again."),
     ("language_switched", "Language switched to English."),
     ("file_received", "File received: \x7b\x7d. Processing..."),
     ("file_error", "Error processing file: \x7b\x7d"),
     ("unsupported_file", "Unsupported file type. Supported: \x7b\x7d"),
     ("no_file", "Please attach a file to analyze.")]),
   ("ru",
    [("welcome", "Добро пожаловать! Я чат-бот на основе ChatGPT с использованием g4f. Отправьте мне любое сообщение, и я отвечу."),
     ("help", "Доступные команды:\n/start - Запустить бота\n/help - Показать эту справку\n/clear - Очистить историю разговора\n/history - Показать историю разговора\n/language - Переключить язык (en/ru)\n/file - Отправить файл для анализа\n\nПросто отправьте мне любое сообщение для общения!"),
     ("cleared", "✓ История разговора очищена."),
     ("history_empty", "История разговора пуста."),
     ("typing", "Печатаю..."),
     ("error", "Извините, произошла ошибка. Пожалуйста, попробуйте ��нова."),
     ("language_switched", "Язык переключен на русский."),
     ("file_received", "Файл получен: \x7b\x7d. Обработка..."),
     ("file_error", "Ошибка при обработке файла: \x7b\x7d"),
     ("unsupported_file", "Неподдерживаемый тип файла. Поддерживаемые: \x7b\x7d"),
     ("no_file", "Пожалуйста, приложите файл для анализа.")])]

/-- Python `d.get(key, dflt)` on a string-keyed dict. -/
def dict_get (d : List (String × String)) (key dflt : String) : String :=
  (d.lookup key).getD dflt

/-- Model of `G4FBot.get_translation`:
`TRANSLATIONS.get(lang, TRANSLATIONS[en]).get(key, TRANSLATIONS[en].get(key, ""))`,
with `lang` the language of the user's manager. -/
def get_translation (lang key : String) : String :=
  let en := (TRANSLATIONS.lookup "en").getD []
  dict_get ((TRANSLATIONS.lookup lang).getD en) key (dict_get en key "")

/-- Python `l[-n:]` for `n ≥ 1`: the last `n` elements (all of `l` when it
is shorter). -/
def takeLast (n : Nat) (l : List α) : List α :=
  l.drop (l.length - n)

/-- The list-level body of `ConversationManager.add_message`: append, then
`if len(conversation) > MAX_HISTORY_LENGTH: conversation = conversation[-MAX_HISTORY_LENGTH:]`. -/
def add_msg_list (conv : List Msg) (m : Msg) : List Msg :=
  if (conv ++ [m]).length > MAX_HISTORY_LENGTH then takeLast MAX_HISTORY_LENGTH (conv ++ [m])
  else conv ++ [m]

/-- The record `ConversationManager.save_history` serializes: the whole
session plus a fresh `datetime.now()` timestamp `now`. -/
def save_record (s : Session) (now : String) : SavedRecord :=
  { user_id := s.user_id, language := s.language, conversation := s.conversation, timestamp := now }

/-- Model of `ConversationManager.__init__` + `_load_history` for `user_id`:
fields start as `language = "en"`, `conversation = []`; if the file exists
and parses, `conversation = data.get("conversation", [])` and
`language = data.get("language", "en")`; a parse failure is logged and
leaves the fresh empty state. -/
def load_history (user_id : Nat) (disk : Disk) : Session :=
  match disk with
  | none => { user_id := user_id, language := "en", conversation := [] }
  | some (Except.error _) => { user_id := user_id, language := "en", conversation := [] }
  | some (Except.ok r) => { user_id := user_id, language := r.language, conversation := r.conversation }

/-- Model of `ConversationManager.add_message`: append with truncation, then
`save_history()` (both timestamps are the current time `ts`). -/
def add_message (st : Store) (role content ts : String) : Store :=
  let conv := add_msg_list st.session.conversation { role := role, content := content, timestamp := ts }
  let s := { st.session with conversation := conv }
  { session := s, disk := some (Except.ok (save_record s ts)) }

/-- Model of `ConversationManager.set_language`: mutate and persist only when the
argument is a key of `TRANSLATIONS`; the returned `Bool` is the Python
return value. -/
def set_language (st : Store) (lang now : String) : Store × Bool :=
  if (TRANSLATIONS.lookup lang).isSome then
    let s := { st.session with language := lang }
    ({ session := s, disk := some (Except.ok (save_record s now)) }, true)
  else (st, false)

/-- The system instruction `_call_g4f` builds from the session language. -/
def system_prompt (language : String) : String :=
  "You are a helpful assistant. Respond in " ++ language ++ " language. Be concise and helpful."

/-- The message list built inside `get_ai_response`: the last 10 history
entries projected to role/content, with the current input appended when it
is not already the last entry. -/
def build_messages (history : List Msg) (user_input : String) : List CMsg :=
  let messages := (takeLast 10 history).map fun m => CMsg.mk m.role m.content
  match messages.getLast? with
  | none => messages ++ [CMsg.mk "user" user_input]
  | some last => if last.content ≠ user_input then messages ++ [CMsg.mk "user" user_input] else messages

/-- The full context `_call_g4f` hands to the backend: the system
instruction prepended to the messages prepared by `get_ai_response`. -/
def turn_context (s : Session) (user_input : String) : List CMsg :=
  CMsg.mk "system" (system_prompt s.language) :: build_messages s.conversation user_input

/-- Model of `G4FBot.get_ai_response`: call the backend on `turn_context`; a raise
propagates (`Except.error`), a falsy (empty) string is replaced by the
localized `error` text. -/
def get_ai_response (s : Session) (user_input : String)
    (provider : List CMsg → Except Unit String) : Except Unit String :=
  match provider (turn_context s user_input) with
  | Except.error e => Except.error e
  | Except.ok r => Except.ok (if r = "" then get_translation s.language "error" else r)

/-- Model of `G4FBot.handle_message`: append the user message (which persists), then
try `get_ai_response`; on success append the assistant message and reply
with it, on exception reply with the localized `error` text.  The returned
`String` is the text sent back to the chat. -/
def handle_message (st : Store) (userMsg ts : String)
    (provider : List CMsg → Except Unit String) : Store × String :=
  let st1 := add_message st "user" userMsg ts
  match get_ai_response st1.session userMsg provider with
  | Except.ok resp => (add_message st1 "assistant" resp ts, resp)
  | Except.error _ => (st1, get_translation st1.session.language "error")

/-- The analysis text `handle_file` builds: file name interpolated into the
fixed template, content truncated to 2000 characters. -/
def analysis_prompt (fileName fileContent : String) : String :=
  "Please analyze the following file content (" ++ fileName ++ "):\n\n" ++ fileContent.take 2000

/-- The context a file-analysis turn sends to the backend: `handle_file`
calls `get_ai_response(analysis_prompt, manager)` before any
`add_message`, so the session passed here still has the pre-turn history. -/
def file_turn_context (s : Session) (fileName fileContent : String) : List CMsg :=
  turn_context s (analysis_prompt fileName fileContent)

/-- The history/provider core of `G4FBot.handle_file` (file-type check,
download and transport replies elided; the exception payload interpolated
into `file_error` by `.format` is opaque here).  Note the backend is called
on the pre-append session and the later `user` entry has different content
(`[File Analysis] name`) than the prompt that was sent. -/
def handle_file_turn (st : Store) (fileName fileContent ts : String)
    (provider : List CMsg → Except Unit String) : Store × String :=
  match get_ai_response st.session (analysis_prompt fileName fileContent) provider with
  | Except.ok resp =>
      let st1 := add_message st "user" ("[File Analysis] " ++ fileName) ts
      (add_message st1 "assistant" resp ts, resp)
  | Except.error _ => (st, get_translation st.session.language "file_error")

/-- Byte-level model of one user's durable file for the atomicity analysis
of `save_history`: `none` is a missing file, `some s` a file with contents
`s`. `open(self.history_file, "w")` truncates the file to empty as soon as
it is opened. -/
def openTruncate (_ : Option String) : Option String :=
  some ""

/-- Appending the serialized record to the (just truncated) open file, as
`json.dump` does on success. -/
def writeAll (disk : Option String) (s : String) : Option String :=
  some (disk.getD "" ++ s)

/-- The sequence of on-disk states a crash can expose during
`save_history`: before the call, after `open(..., "w")` truncated the
file, and after the record `rec` was fully written. -/
def save_states (old : Option String) (rec : String) : List (Option String) :=
  [old, openTruncate old, writeAll (openTruncate old) rec]

/-- Model of `save_history` with an explicit I/O outcome: on success the record is
fully written; on failure the file is left truncated.  The second
component is the exception visible to the caller — always `none`, because
the `except` branch only logs. -/
def save_history_run (ioOk : Bool) (old : Option String) (rec : String) :
    Option String × Option String :=
  let t := openTruncate old
  if ioOk then (writeAll t rec, none) else (t, none)

/-- Modelled from the spec: the repository has no Message Chunker under
`src/` (outbound replies are sent whole); this is §4.5's
`split(text, limit)` with the default boundary-agnostic strategy: slices
of `limit` units in order.  The `limit = 0` alternative of the guard is
only for termination; the contract requires `limit ≥ 1`. -/
def splitChunks (limit : Nat) (text : List Char) : List (List Char) :=
  if text = [] ∨ limit = 0 then []
  else text.take limit :: splitChunks limit (text.drop limit)
termination_by text.length
decreasing_by
  rename_i h
  push_neg at h
  have h1 : 0 < text.length := List.length_pos.mpr h.1
  simp only [List.length_drop]
  omega

/-- Boolean check that every chunk respects the size limit. -/
def chunksOk (limit : Nat) (cs : List (List Char)) : Bool :=
  cs.all fun c => c.length ≤ limit

/-- A concrete fresh manager state used by the closed witnesses below. -/
def sampleStore : Store :=
  { session := { user_id := 1, language := "en", conversation := [] }, disk := none }

theorem takeLast_eq_reverse_take (n : Nat) (l : List α) :
    takeLast n l = (l.reverse.take n).reverse := by
  rw [List.take_reverse, List.reverse_reverse]
  rfl

theorem length_takeLast (n : Nat) (l : List α) :
    (takeLast n l).length = min n l.length := by
  simp only [takeLast, List.length_drop]
  omega

theorem takeLast_of_length_le {l : List α} {n : Nat} (h : l.length ≤ n) :
    takeLast n l = l := by
  simp [takeLast, Nat.sub_eq_zero_of_le h]

theorem takeLast_append_left (n : Nat) (A B : List α) :
    takeLast n (takeLast n A ++ B) = takeLast n (A ++ B) := by
  have hrev : (takeLast n A).reverse = A.reverse.take n := by
    rw [takeLast_eq_reverse_take, List.reverse_reverse]
  rw [takeLast_eq_reverse_take n (takeLast n A ++ B), takeLast_eq_reverse_take n (A ++ B)]
  congr 1
  rw [List.reverse_append, List.reverse_append, hrev,
      List.take_append_eq_append_take, List.take_append_eq_append_take,
      List.take_take]
  have hmin : (n - B.reverse.length) ⊓ n = n - B.reverse.length := by omega
  rw [hmin]

theorem takeLast_append_singleton {n : Nat} (hn : 1 ≤ n) (l : List α) (m : α) :
    takeLast n (l ++ [m]) = takeLast (n - 1) l ++ [m] := by
  obtain ⟨k, rfl⟩ : ∃ k, n = k + 1 := ⟨n - 1, by omega⟩
  rw [takeLast_eq_reverse_take, takeLast_eq_reverse_take]
  simp [List.take_succ_cons]

theorem add_msg_list_eq_takeLast (L : List Msg) (m : Msg) :
    add_msg_list L m = takeLast MAX_HISTORY_LENGTH (L ++ [m]) := by
  unfold add_msg_list
  by_cases hlen : (L ++ [m]).length > MAX_HISTORY_LENGTH
  · rw [if_pos hlen]
  · rw [if_neg hlen, takeLast_of_length_le (by omega)]

theorem foldl_add_msg_list (ms : List Msg) (P : List Msg) :
    ms.foldl add_msg_list (takeLast MAX_HISTORY_LENGTH P) =
      takeLast MAX_HISTORY_LENGTH (P ++ ms) := by
  induction ms generalizing P with
  | nil => simp
  | cons m t ih =>
      rw [List.foldl_cons]
      rw [add_msg_list_eq_takeLast, takeLast_append_left, ih (P ++ [m])]
      simp

/-- C1: starting from any history within the cap, after every `add_message`
in a sequence of appends the history length is at most
`MAX_HISTORY_LENGTH`, and the retained entries are exactly the most recent
ones of the full append sequence in insertion order (`takeLast`, i.e.
oldest dropped first, no reordering).  `add_msg_list` is the history
mutation performed by `ConversationManager.add_message`. -/
theorem add_message_history_invariant (init ms : List Msg)
    (hinit : init.length ≤ MAX_HISTORY_LENGTH) (i : Nat) :
    ((ms.take i).foldl add_msg_list init).length ≤ MAX_HISTORY_LENGTH ∧
    (ms.take i).foldl add_msg_list init =
      takeLast MAX_HISTORY_LENGTH (init ++ ms.take i) := by
  have hfold : (ms.take i).foldl add_msg_list init =
      takeLast MAX_HISTORY_LENGTH (init ++ ms.take i) := by
    calc (ms.take i).foldl add_msg_list init
        = (ms.take i).foldl add_msg_list (takeLast MAX_HISTORY_LENGTH init) := by
          rw [takeLast_of_length_le hinit]
      _ = takeLast MAX_HISTORY_LENGTH (init ++ ms.take i) := foldl_add_msg_list _ _
  refine ⟨?_, hfold⟩
  rw [hfold, length_takeLast]
  omega

theorem add_message_history_invariant_witness :
    ([] : List Msg).length ≤ MAX_HISTORY_LENGTH ∧
    ((([Msg.mk "user" "a" "t1", Msg.mk "assistant" "b" "t2"].take 1).foldl
        add_msg_list ([] : List Msg)).length ≤ MAX_HISTORY_LENGTH ∧
     ([Msg.mk "user" "a" "t1", Msg.mk "assistant" "b" "t2"].take 1).foldl
        add_msg_list ([] : List Msg) =
       takeLast MAX_HISTORY_LENGTH
         (([] : List Msg) ++ [Msg.mk "user" "a" "t1", Msg.mk "assistant" "b" "t2"].take 1)) :=
  ⟨by decide,
   add_message_history_invariant []
     [Msg.mk "user" "a" "t1", Msg.mk "assistant" "b" "t2"] (by decide) 1⟩

/-- C4 counterexample: `save_history` opens the target file with mode `w`,
which truncates it in place; the empty intermediate state is observable at
a crash and is neither the old nor the new record, a failed write leaves
the previous durable copy destroyed, and the failure is swallowed (the
caller sees no error). -/
theorem save_not_atomic_counterexample :
    some "" ∈ save_states (some "old record") "new record" ∧
    some "" ≠ (some "old record" : Option String) ∧
    some "" ≠ (some "new record" : Option String) ∧
    save_history_run false (some "old record") "new record" = (some "", none) := by
  refine ⟨?_, by decide, by decide, rfl⟩
  simp [save_states, openTruncate]

/-- C4 amended: `save_history` rewrites the session file in place —
opening with mode `w` truncates it before the new record is written, so
the on-disk states during a save are exactly: old copy, empty file,
complete new record.  A successful save leaves the complete record, a
failed one leaves the truncated file, and in both cases no error reaches
the caller (the `except` branch only logs). -/
theorem save_history_truncates_in_place (old : Option String) (rec : String) :
    save_states old rec = [old, some "", some rec] ∧
    save_history_run true old rec = (some rec, none) ∧
    save_history_run false old rec = (some "", none) := by
  refine ⟨?_, ?_, rfl⟩ <;>
    simp [save_states, save_history_run, openTruncate, writeAll]

/-- C10: `set_language` mutates the session iff the argument is a key of
`TRANSLATIONS` (exactly `"en"` or `"ru"`); in that case only the
`language` field changes, the new session is persisted and `True` is
returned; otherwise the state (session and disk) is untouched, nothing is
persisted and `False` is returned. -/
theorem set_language_frame (st : Store) (lang now : String) :
    set_language st lang now =
      if lang = "en" ∨ lang = "ru" then
        ({ session := { user_id := st.session.user_id, language := lang,
                        conversation := st.session.conversation },
           disk := some (Except.ok (save_record
             { user_id := st.session.user_id, language := lang,
               conversation := st.session.conversation } now)) }, true)
      else (st, false) := by
  by_cases h1 : lang = "en"
  · subst h1
    simp [set_language, TRANSLATIONS, List.lookup]
  · by_cases h2 : lang = "ru"
    · subst h2
      simp [set_language, TRANSLATIONS, List.lookup]
    · have e1 : (lang == "en") = false := beq_eq_false_iff_ne.mpr h1
      have e2 : (lang == "ru") = false := beq_eq_false_iff_ne.mpr h2
      simp [set_language, TRANSLATIONS, List.lookup, e1, e2, h1, h2]

/-- C3: saving a session and loading it back for the same `user_id`
reproduces the session exactly: `_load_history` restores `conversation`
and `language` from the record `save_history` wrote, and `user_id` is the
constructor argument. -/
theorem save_load_roundtrip (s : Session) (now : String) :
    load_history s.user_id (some (Except.ok (save_record s now))) = s := by
  cases s
  rfl

/-- C6: loading with no persisted record, or with an unreadable/corrupt
one, yields a fresh session with empty history and default language; the
load is total, so it never fails. -/
theorem load_missing_or_corrupt_is_fresh (uid : Nat) :
    load_history uid none = { user_id := uid, language := "en", conversation := [] } ∧
    load_history uid (some (Except.error ())) =
      { user_id := uid, language := "en", conversation := [] } :=
  ⟨rfl, rfl⟩

theorem build_messages_of_concat (Z : List Msg) (r c t : String) :
    build_messages (Z ++ [Msg.mk r c t]) c =
      (takeLast 10 (Z ++ [Msg.mk r c t])).map fun m => CMsg.mk m.role m.content := by
  unfold build_messages
  rw [takeLast_append_singleton (by omega) Z (Msg.mk r c t), List.map_append]
  simp [List.getLast?_concat]

/-- C5 (text-message turns): in every `handle_message` turn the context
handed to the backend is exactly one system instruction embedding the
session's language followed by the last 10 entries of the session history
(which already contains the just-appended user message), in history order,
nothing else and nothing duplicated: the `messages[-1] != user_input`
dedup branch of `get_ai_response` never appends a second copy here. -/
theorem context_is_last_ten_of_history (st : Store) (userMsg ts : String) :
    turn_context (add_message st "user" userMsg ts).session userMsg =
      CMsg.mk "system" (system_prompt st.session.language) ::
        (takeLast 10 (add_message st "user" userMsg ts).session.conversation).map
          fun m => CMsg.mk m.role m.content := by
  have hconv : (add_message st "user" userMsg ts).session.conversation =
      takeLast (MAX_HISTORY_LENGTH - 1) st.session.conversation ++ [Msg.mk "user" userMsg ts] := by
    show add_msg_list st.session.conversation (Msg.mk "user" userMsg ts) = _
    rw [add_msg_list_eq_takeLast,
        takeLast_append_singleton (by decide) st.session.conversation (Msg.mk "user" userMsg ts)]
  have hlang : (add_message st "user" userMsg ts).session.language = st.session.language := rfl
  unfold turn_context
  rw [hlang, hconv, build_messages_of_concat]

/-- C5 counterexample: a file-analysis turn (`handle_file`) sends the
analysis prompt to the backend although it is not part of the session
history — on an empty session the context is the system instruction plus
that prompt, not the system instruction plus the (empty) last-10 slice of
the history. -/
theorem file_turn_context_not_history_slice :
    file_turn_context { user_id := 7, language := "en", conversation := [] } "a.txt" "data" =
      [CMsg.mk "system" (system_prompt "en"),
       CMsg.mk "user" (analysis_prompt "a.txt" "data")] ∧
    file_turn_context { user_id := 7, language := "en", conversation := [] } "a.txt" "data" ≠
      CMsg.mk "system" (system_prompt "en") ::
        (takeLast 10 ([] : List Msg)).map fun m => CMsg.mk m.role m.content := by
  have h2 : file_turn_context { user_id := 7, language := "en", conversation := [] } "a.txt" "data" =
      [CMsg.mk "system" (system_prompt "en"),
       CMsg.mk "user" (analysis_prompt "a.txt" "data")] := rfl
  refine ⟨h2, ?_⟩
  rw [h2]
  simp [takeLast]

/-- C2: when the backend call raises, the turn appends no assistant entry:
the resulting state is exactly the user-message append (which is already
persisted by `add_message`), and the caller gets the localized error text
instead of a completion. -/
theorem failed_turn_keeps_user_message_only (st : Store) (m ts : String)
    (provider : List CMsg → Except Unit String)
    (hfail : provider (turn_context (add_message st "user" m ts).session m) = Except.error ()) :
    handle_message st m ts provider =
      (add_message st "user" m ts,
       get_translation (add_message st "user" m ts).session.language "error") := by
  simp only [handle_message, get_ai_response, hfail]

theorem failed_turn_keeps_user_message_only_witness :
    (fun _ : List CMsg => (Except.error () : Except Unit String))
        (turn_context (add_message sampleStore "user" "hi" "t0").session "hi") =
      Except.error () ∧
    handle_message sampleStore "hi" "t0" (fun _ => Except.error ()) =
      (add_message sampleStore "user" "hi" "t0",
       get_translation (add_message sampleStore "user" "hi" "t0").session.language "error") :=
  ⟨rfl, failed_turn_keeps_user_message_only sampleStore "hi" "t0" (fun _ => Except.error ()) rfl⟩

/-- C9: when the backend returns without raising but with an empty (falsy)
string, `get_ai_response` substitutes the localized error text as a normal
completion, so `handle_message` appends it to history as an assistant
message (persisting it) and replies with it. -/
theorem empty_response_stored_as_assistant (st : Store) (m ts : String)
    (provider : List CMsg → Except Unit String)
    (hempty : provider (turn_context (add_message st "user" m ts).session m) = Except.ok "") :
    handle_message st m ts provider =
      (add_message (add_message st "user" m ts) "assistant"
         (get_translation (add_message st "user" m ts).session.language "error") ts,
       get_translation (add_message st "user" m ts).session.language "error") := by
  simp [handle_message, get_ai_response, hempty]

theorem empty_response_stored_as_assistant_witness :
    (fun _ : List CMsg => (Except.ok "" : Except Unit String))
        (turn_context (add_message sampleStore "user" "hi" "t0").session "hi") =
      Except.ok "" ∧
    handle_message sampleStore "hi" "t0" (fun _ => Except.ok "") =
      (add_message (add_message sampleStore "user" "hi" "t0") "assistant"
         (get_translation (add_message sampleStore "user" "hi" "t0").session.language "error") "t0",
       get_translation (add_message sampleStore "user" "hi" "t0").session.language "error") :=
  ⟨rfl, empty_response_stored_as_assistant sampleStore "hi" "t0" (fun _ => Except.ok "") rfl⟩

/-- C8 (chunker modelled from the spec, no chunker exists in `src/`): for
`limit ≥ 1` every chunk has length ≤ `limit`, the chunks concatenate back
to the input exactly, and the chunk count is `ceil(len/limit)`. -/
theorem splitChunks_correct (limit : Nat) (hl : 1 ≤ limit) (text : List Char) :
    chunksOk limit (splitChunks limit text) = true ∧
    (splitChunks limit text).flatten = text ∧
    (splitChunks limit text).length = (text.length + limit - 1) / limit := by
  induction text using splitChunks.induct limit with
  | case1 text h =>
      rcases h with h | h
      · subst h
        rw [splitChunks, if_pos (Or.inl rfl)]
        refine ⟨rfl, rfl, ?_⟩
        have hz : (limit - 1) / limit = 0 := Nat.div_eq_of_lt (by omega)
        simp [hz]
      · omega
  | case2 text h ih =>
      push_neg at h
      have hn : 1 ≤ text.length := by
        have := List.length_pos.mpr h.1
        omega
      rw [splitChunks, if_neg (by push_neg; exact h)]
      obtain ⟨ihOk, ihFlat, ihLen⟩ := ih
      refine ⟨?_, ?_, ?_⟩
      · simp only [chunksOk, List.all_cons, Bool.and_eq_true]
        refine ⟨?_, ihOk⟩
        simp [List.length_take]
      · simp only [List.flatten_cons, ihFlat]
        exact List.take_append_drop limit text
      · simp only [List.length_cons, ihLen, List.length_drop]
        rcases le_or_lt text.length limit with hc | hc
        · have e0 : (text.length - limit + limit - 1) / limit = 0 :=
            Nat.div_eq_of_lt (by omega)
          have e1 : (text.length + limit - 1) / limit = 1 :=
            Nat.div_eq_of_lt_le (by omega) (by omega)
          omega
        · have e : text.length + limit - 1 = (text.length - limit + limit - 1) + limit := by
            omega
          rw [e, Nat.add_div_right _ (by omega)]

theorem splitChunks_correct_witness :
    1 ≤ 3 ∧
    (chunksOk 3 (splitChunks 3 ['a', 'b', 'c', 'd', 'e', 'f', 'g']) = true ∧
     (splitChunks 3 ['a', 'b', 'c', 'd', 'e', 'f', 'g']).flatten =
       ['a', 'b', 'c', 'd', 'e', 'f', 'g'] ∧
     (splitChunks 3 ['a', 'b', 'c', 'd', 'e', 'f', 'g']).length =
       (['a', 'b', 'c', 'd', 'e', 'f', 'g'].length + 3 - 1) / 3) :=
  ⟨by decide, splitChunks_correct 3 (by decide) ['a', 'b', 'c', 'd', 'e', 'f', 'g']⟩

end TgBot
